import Mathlib

/-!
Verification of the `envier` configuration framework (`src/envier/env.py`).

Python strings are modelled as `List Char` (`Str`), because the claims need
kernel-computable string operations; every operation used by the source
(`upper`, `replace(".", "_")`, `rstrip("_")`, `lower`, `split(sep)`,
`split(sep, 1)`, `endswith`, `strip`) is defined below by structural
recursion, matching CPython semantics on the inputs the engine handles
(ASCII names and values; the `replace` pattern in the source is the single
character "."). `split` is defined with an explicit fuel argument equal to
the length of the input plus one, which is always sufficient, so that the
definition is structurally recursive and reduces inside the kernel; Python
raises ValueError on an empty separator, which the model does not reproduce
(the engine only ever uses the configured non-empty separators).

Python runtime values are a closed universe `PyVal` (str, int, bool, list,
tuple, set, dict) and type objects are tags `PyType`, with `Union[...]`
represented as `PyType.union` over its `__args__`.  Sets and dicts are kept
as lists in first-insertion order, the canonical representative of the
unordered Python value; Python exceptions are the error type `PyErr`
carried through `Except`.  Exception message strings reproduce the format
strings of the source where a claim mentions them (the deprecation warning
and the KeyError text); messages produced by Python internals (ValueError
from `int()`, TypeError texts that embed `repr` of type objects) are kept
as fixed descriptive strings, since no claim inspects them.
-/

/-- Python strings, modelled as their list of characters. -/
abbrev Str := List Char

/-- Injection of Lean string literals into the model. -/
def S (s : String) : Str := s.data

/-- ASCII uppercase of one character, as CPython `str.upper` acts on ASCII. -/
def upChar (c : Char) : Char :=
  if 97 ≤ c.toNat ∧ c.toNat ≤ 122 then Char.ofNat (c.toNat - 32) else c

/-- ASCII lowercase of one character, as CPython `str.lower` acts on ASCII. -/
def downChar (c : Char) : Char :=
  if 65 ≤ c.toNat ∧ c.toNat ≤ 90 then Char.ofNat (c.toNat + 32) else c

/-- Python `s.upper()`. -/
def toUpperS (s : Str) : Str := s.map upChar

/-- Python `s.lower()`. -/
def toLowerS (s : Str) : Str := s.map downChar

/-- Python `s.replace(".", "_")`; the source only ever replaces the single
character "." by "_", for which a character map is faithful. -/
def replaceDotUS (s : Str) : Str := s.map (fun c => if c = '.' then '_' else c)

/-- Python `s.rstrip("_")`: drop every trailing underscore. -/
def rstripUS (s : Str) : Str := (s.reverse.dropWhile (fun c => c = '_')).reverse

/-- Python `s.endswith(t)`. -/
def endsWithS (s t : Str) : Bool := t.isSuffixOf s

/-- Python whitespace test for `str.strip()` (the ASCII whitespace set). -/
def isSpaceC (c : Char) : Bool :=
  c = ' ' ∨ c = '\t' ∨ c = '\n' ∨ c = '\r' ∨ c = '\x0b' ∨ c = '\x0c'

/-- Python `s.strip()`. -/
def trimS (s : Str) : Str :=
  ((s.dropWhile isSpaceC).reverse.dropWhile isSpaceC).reverse

/-- If `p` is a prefix of `s`, return the remainder of `s`, else `none`. -/
def dropStart : Str → Str → Option Str
  | [], s => some s
  | _ :: _, [] => none
  | p :: ps, c :: cs => if p = c then dropStart ps cs else none

/-- Worker for Python `s.split(sep)`: scan `s`, cutting at each leftmost
non-overlapping occurrence of `sep`.  The fuel is always at least the
length of the remaining input plus one, so the fuel-zero branch is never
taken for the arguments `splitOnS` supplies. -/
def splitAux (sep : Str) : Nat → Str → Str → List Str
  | 0, cur, s => [cur.reverse ++ s]
  | fuel + 1, cur, s =>
    match s with
    | [] => [cur.reverse]
    | c :: rest =>
      match dropStart sep (c :: rest) with
      | some after => cur.reverse :: splitAux sep fuel [] after
      | none => splitAux sep fuel (c :: cur) rest

/-- Python `s.split(sep)` for a non-empty separator (the engine always uses
its configured separators, non-empty by default; Python raises ValueError
on an empty separator, a case the model maps to no split). -/
def splitOnS (sep s : Str) : List Str :=
  match sep with
  | [] => [s]
  | _ => splitAux sep (s.length + 1) [] s

/-- Python `s.split(sep, 1)`: split at the first occurrence only. -/
def splitOnceS (sep : Str) (s : Str) : List Str :=
  go [] s
where
  go : Str → Str → List Str
    | cur, [] => [cur.reverse]
    | cur, c :: rest =>
      match dropStart sep (c :: rest) with
      | some after => [cur.reverse, after]
      | none => go (c :: cur) rest

/-- Python `int(s)`: optional surrounding whitespace, an optional sign, then
a non-empty run of decimal digits.  (CPython additionally accepts single
underscores between digits, a corner no claim exercises.) -/
def pyParseInt (s : Str) : Option Int :=
  let t := trimS s
  match t with
  | '-' :: ds => (digitsVal ds 0).map (fun n => -(n : Int))
  | '+' :: ds => (digitsVal ds 0).map (fun n => (n : Int))
  | ds => (digitsVal ds 0).map (fun n => (n : Int))
where
  digitsVal : Str → Nat → Option Nat
    | [], _ => none
    | [c], acc =>
      if 48 ≤ c.toNat ∧ c.toNat ≤ 57 then some (acc * 10 + (c.toNat - 48)) else none
    | c :: cs, acc =>
      if 48 ≤ c.toNat ∧ c.toNat ≤ 57 then digitsVal cs (acc * 10 + (c.toNat - 48)) else none

/-- Lexicographic string comparison by code point, Python `a <= b`. -/
def strLeB : Str → Str → Bool
  | [], _ => true
  | _ :: _, [] => false
  | a :: as, b :: bs =>
    if a.toNat < b.toNat then true
    else if b.toNat < a.toNat then false
    else strLeB as bs

/-- The runtime type tags the engine dispatches on.  `union args` stands for
`typing.Union[...]` with `__args__ = args` (already flattened, as Python
flattens nested unions); the member types of a union are plain classes. -/
inductive PyType where
  | str
  | int
  | bool
  | list
  | tuple
  | set
  | dict
  | union (args : List PyType)

/-- The closed universe of Python runtime values the engine produces.  Sets
and dicts carry their elements in first-insertion order, the canonical
representative of the unordered Python value. -/
inductive PyVal where
  | str (s : Str)
  | int (n : Int)
  | bool (b : Bool)
  | list (xs : List PyVal)
  | tuple (xs : List PyVal)
  | set (xs : List PyVal)
  | dict (xs : List (PyVal × PyVal))

/-- Python exceptions raised by the engine or by user-supplied callables. -/
inductive PyErr where
  | typeError (msg : Str)
  | valueError (msg : Str)
  | keyError (msg : Str)
  | attributeError (msg : Str)
  | userError (msg : Str)

/- Python `==` on values (`pyEqL`, `pyEqP` handle element lists and pair
lists).  `True == 1` holds in Python, hence the bool/int cross cases.  For
sets and dicts Python equality is order-insensitive; since the model keeps
them in canonical first-insertion order and no claim compares collections
built in different orders, list equality is adequate here. -/
mutual
def pyEq : PyVal → PyVal → Bool
  | .str a, .str b => a == b
  | .int a, .int b => a == b
  | .bool a, .bool b => a == b
  | .int a, .bool b => a == (if b then (1 : Int) else 0)
  | .bool a, .int b => (if a then (1 : Int) else 0) == b
  | .list a, .list b => pyEqL a b
  | .tuple a, .tuple b => pyEqL a b
  | .set a, .set b => pyEqL a b
  | .dict a, .dict b => pyEqP a b
  | _, _ => false
def pyEqL : List PyVal → List PyVal → Bool
  | [], [] => true
  | a :: as, b :: bs => pyEq a b && pyEqL as bs
  | _, _ => false
def pyEqP : List (PyVal × PyVal) → List (PyVal × PyVal) → Bool
  | [], [] => true
  | (k, v) :: as, (l, w) :: bs => pyEq k l && pyEq v w && pyEqP as bs
  | _, _ => false
end

/-- Python `isinstance(v, t)` for a plain class tag `t`.  `bool` is a
subclass of `int` in Python, so a bool is an instance of `int`.  A bare
union is not a class and `isinstance` against it raises in Python; the
engine only ever passes the member tuple `__args__`, so the union case
here is unreachable and returns `false`. -/
def isInstance (v : PyVal) (t : PyType) : Bool :=
  match v, t with
  | .str _, .str => true
  | .int _, .int => true
  | .bool _, .bool => true
  | .bool _, .int => true
  | .list _, .list => true
  | .tuple _, .tuple => true
  | .set _, .set => true
  | .dict _, .dict => true
  | _, .union _ => false
  | _, _ => false

/-- `_check_type(value, _type)` from env.py lines 39 to 44: a type with
`__origin__` (a union) is checked by `isinstance(value, _type.__args__)`,
any other type by plain `isinstance`. -/
def check_type (v : PyVal) (t : PyType) : Bool :=
  match t with
  | .union args => args.any (fun a => isInstance v a)
  | t => isInstance v t

/-- `_normalized(name)` from env.py lines 34 to 36:
`name.upper().replace(".", "_").rstrip("_")`. -/
def normalized (name : Str) : Str := rstripUS (replaceDotUS (toUpperS name))

-- A few ground sanity checks of the string layer against CPython.
example : normalized (S "a.b.c_") = S "A_B_C" := rfl
example : normalized (S "x___") = S "X" := rfl
example : splitOnS (S ",") (S "a,,bc") = [S "a", S "", S "bc"] := rfl
example : splitOnS (S ",") (S "") = [S ""] := rfl
example : splitOnceS (S ":") (S "a:b:c") = [S "a", S "b:c"] := rfl
example : splitOnceS (S ":") (S "a") = [S "a"] := rfl
example : pyParseInt (S " 42 ") = some 42 := rfl
example : pyParseInt (S "1.5") = none := rfl
example : pyParseInt (S "-7") = some (-7) := rfl
example : toLowerS (S "TRue") = S "true" := rfl

/-- The slice of a live `Env` object that `EnvVariable._retrieve` reads:
`env.source`, `env.__truthy__`, `env.__item_separator__` and
`env.__value_separator__` (env.py lines 84, 132, 134, 138).  The source
mapping is an association list looked up by exact key. -/
structure EnvObj where
  source : List (Str × Str)
  truthy : List Str
  itemSep : Str
  valueSep : Str

/-- The class-level knobs of an `Env` subclass (env.py lines 215 to 219),
carried by each schema so that nested subclasses may override them. -/
structure EnvCfg where
  truthy : List Str
  itemSep : Str
  valueSep : Str

/-- The default knobs: `__truthy__ = {"1","true","yes","on"}`,
`__item_separator__ = ","`, `__value_separator__ = ":"`. -/
def defaultCfg : EnvCfg :=
  ⟨[S "1", S "true", S "yes", S "on"], S ",", S ":"⟩

/-- `source.get(key)`: first binding of `key` in the association list. -/
def lookupRaw (src : List (Str × Str)) (key : Str) : Option Str :=
  (src.find? (fun p => p.1 == key)).map (fun p => p.2)

/-- The `map` argument of a variable declaration: either a one-argument
element transform (applied per element of a list/tuple/set) or a
two-argument pair transform (applied per dict item).  Using a one-argument
map on a dict, or a two-argument map on a plain collection, is a Python
TypeError at call time, which the coercion model reproduces. -/
inductive MapFn where
  | one (f : Str → PyVal)
  | two (f : Str → Str → PyVal × PyVal)

/-- The `default` argument: either the `NoDefault` sentinel (an instance of
`NoDefaultType`, whose `str()` is the empty string) or a concrete value. -/
inductive Default where
  | noDefault
  | val (v : PyVal)

/-- The `EnvVariable` descriptor (env.py lines 47 to 80), with the fields
its constructor stores.  Parsers, validators and maps are user-supplied
callables; a validator returns nothing and signals failure by raising. -/
structure EnvVariable where
  type : PyType
  name : Str
  parser : Option (Str → Except PyErr PyVal) := none
  validator : Option (PyVal → Except PyErr Unit) := none
  map : Option MapFn := none
  default : Default := .noDefault
  deprecations : List (Str × Option Str × Option Str) := []
  help : Option Str := none
  help_type : Option Str := none
  help_default : Option Str := none

/-- The declaration-time check of `EnvVariable.__init__` (env.py lines 62
to 68): for a union type it requires `isinstance(default, type.__args__)`
with no exemption for the `NoDefault` sentinel (the sentinel is an instance
of `NoDefaultType`, never a union member, so the check fails for it); for
any other type it raises only when the default is not the sentinel and not
an instance of the type. -/
def declareVar (v : EnvVariable) : Except PyErr EnvVariable :=
  match v.type with
  | .union args =>
    match v.default with
    | .noDefault => .error (.typeError (S "default must be either of these types"))
    | .val d =>
      if args.any (fun a => isInstance d a) then .ok v
      else .error (.typeError (S "default must be either of these types"))
  | t =>
    match v.default with
    | .noDefault => .ok v
    | .val d =>
      if isInstance d t then .ok v
      else .error (.typeError (S "default must be of type"))

/-- Python first-occurrence deduplication, as `set(iterable)` retains one
copy of each equal element (kept in insertion order as the canonical
representative). -/
def dedupPy (xs : List PyVal) : List PyVal :=
  xs.foldl (fun acc x => if acc.any (fun y => pyEq y x) then acc else acc ++ [x]) []

/-- Build the collection value `self.type(elements)` for a list, tuple or
set tag. -/
def mkColl (t : PyType) (xs : List PyVal) : PyVal :=
  match t with
  | .tuple => .tuple xs
  | .set => .set (dedupPy xs)
  | _ => .list xs

/-- Calling a type object on one string argument, `t(raw)` (env.py lines
151 and 155).  `int(raw)` parses or raises ValueError; `str(raw)` is the
identity; `bool(raw)` is the truthiness of the string (non-empty);
`list/tuple/set(raw)` iterate the characters; `dict(raw)` raises ValueError
unless the string is empty; calling a bare `typing.Union` raises TypeError. -/
def construct1 (t : PyType) (raw : Str) : Except PyErr PyVal :=
  match t with
  | .str => .ok (.str raw)
  | .int =>
    match pyParseInt raw with
    | some n => .ok (.int n)
    | none => .error (.valueError (S "invalid literal for int() with base 10: " ++ raw))
  | .bool => .ok (.bool (raw ≠ []))
  | .list => .ok (.list (raw.map (fun c => .str [c])))
  | .tuple => .ok (.tuple (raw.map (fun c => .str [c])))
  | .set => .ok (.set (dedupPy (raw.map (fun c => .str [c]))))
  | .dict =>
    match raw with
    | [] => .ok (.dict [])
    | _ => .error (.valueError (S "dictionary update sequence element has length 1"))
  | .union _ => .error (.typeError (S "cannot instantiate a Union type"))

/-- The union coercion loop (env.py lines 149 to 153): try `t(raw)` for
each member in declared order; only a TypeError moves on to the next
member, any other exception propagates; `none` means every member raised
TypeError and control falls through to line 155. -/
def tryUnion (args : List PyType) (raw : Str) : Option (Except PyErr PyVal) :=
  match args with
  | [] => none
  | t :: rest =>
    match construct1 t raw with
    | .ok v => some (.ok v)
    | .error (.typeError _) => tryUnion rest raw
    | .error e => some (.error e)

/-- The list/tuple/set branch (env.py lines 133 to 135):
`self.type(collection if self.map is None else map(self.map, collection))`.
A two-argument map raises TypeError when called with one element. -/
def buildCollection (t : PyType) (m : Option MapFn) (items : List Str) : Except PyErr PyVal :=
  match m with
  | none => .ok (mkColl t (items.map .str))
  | some (.one f) => .ok (mkColl t (items.map f))
  | some (.two _) =>
    .error (.typeError (S "map() missing 1 required positional argument"))

/-- Each item of the raw dict string is `item.split(value_separator, 1)`
(env.py line 138); an item that does not contain the separator yields a
one-element list, on which `dict()` raises ValueError. -/
def toPairs (vsep : Str) : List Str → Except PyErr (List (Str × Str))
  | [] => .ok []
  | s :: rest =>
    match splitOnceS vsep s with
    | [k, v] =>
      match toPairs vsep rest with
      | .ok tl => .ok ((k, v) :: tl)
      | .error e => .error e
    | _ => .error (.valueError (S "dictionary update sequence element has length 1"))

/-- One insertion into a Python dict under construction: an existing equal
key keeps its position and key object and has its value overwritten, a new
key is appended. -/
def dictInsert (d : List (PyVal × PyVal)) (k v : PyVal) : List (PyVal × PyVal) :=
  if d.any (fun p => pyEq p.1 k) then
    d.map (fun p => if pyEq p.1 k then (p.1, v) else p)
  else d ++ [(k, v)]

/-- `dict(pairs)` over string pairs: sequential insertion, so a later
duplicate key silently overwrites an earlier one. -/
def buildLastWins (pairs : List (Str × Str)) : List (PyVal × PyVal) :=
  pairs.foldl (fun d kv => dictInsert d (.str kv.1) (.str kv.2)) []

/-- The dict branch (env.py lines 136 to 143): build the dict from the
split pairs, then, when a map is given, rebuild it from
`self.map(*item) for item in d.items()`.  A one-argument map called with
the two item components raises TypeError. -/
def buildDict (m : Option MapFn) (vsep : Str) (items : List Str) : Except PyErr PyVal :=
  match toPairs vsep items with
  | .error e => .error e
  | .ok pairs =>
    let d := buildLastWins pairs
    match m with
    | none => .ok (.dict d)
    | some (.two f) =>
      .ok (.dict ((d.map (fun kv =>
        match kv.1, kv.2 with
        | .str k, .str v => f k v
        | _, _ => kv)).foldl (fun d2 kv => dictInsert d2 kv.1 kv.2) []))
    | some (.one _) =>
      .error (.typeError (S "map() takes 1 positional argument but 2 were given"))

/-- The straight-line tail of `EnvVariable._retrieve` once a raw string is
in hand (env.py lines 121 to 155): custom parser with a type check on its
result, then the `bool` branch against the truthy set, the list/tuple/set
branch, the dict branch, the `_check_type(raw, self.type)` early return of
the raw string, the union constructor loop, and the final fallback
`self.type(raw)`. -/
def coerceRaw (v : EnvVariable) (env : EnvObj) (raw : Str) : Except PyErr PyVal :=
  match v.parser with
  | some p =>
    match p raw with
    | .error e => .error e
    | .ok parsed =>
      if check_type parsed v.type then .ok parsed
      else .error (.typeError (S "parser returned the wrong type"))
  | none =>
    match v.type with
    | .bool => .ok (.bool (env.truthy.contains (toLowerS raw)))
    | .list => buildCollection .list v.map (splitOnS env.itemSep raw)
    | .tuple => buildCollection .tuple v.map (splitOnS env.itemSep raw)
    | .set => buildCollection .set v.map (splitOnS env.itemSep raw)
    | .dict => buildDict v.map env.valueSep (splitOnS env.itemSep raw)
    | t =>
      if check_type (.str raw) t then .ok (.str raw)
      else
        match t with
        | .union args =>
          match tryUnion args raw with
          | some r => r
          | none => construct1 (.union args) raw
        | t1 => construct1 t1 raw

/-- The deprecation warning text (env.py lines 93 to 112):
`"%s has been deprecated%s%s. Use %s instead"` with the optional
`" in version %s"` and `" and will be removed in version %s"` clauses. -/
def warningMessage (fullDepName : Str) (deprecatedWhen removedWhen : Option Str)
    (fullName : Str) : Str :=
  fullDepName ++ S " has been deprecated" ++
    (match deprecatedWhen with
     | some v => S " in version " ++ v
     | none => []) ++
    (match removedWhen with
     | some v => S " and will be removed in version " ++ v
     | none => []) ++
    S ". Use " ++ fullName ++ S " instead"

/-- The deprecation fallback loop (env.py lines 88 to 113): scan the
deprecation list in order; the first name present in the source yields its
raw value together with one warning, and the scan stops. -/
def scanDeprecations (src : List (Str × Str)) (pfx fullName : Str) :
    List (Str × Option Str × Option Str) → Option (Str × Str)
  | [] => none
  | (name, deprecatedWhen, removedWhen) :: rest =>
    let fullDepName := pfx ++ normalized name
    match lookupRaw src fullDepName with
    | some raw =>
      some (warningMessage fullDepName deprecatedWhen removedWhen fullName, raw)
    | none => scanDeprecations src pfx fullName rest

/-- `EnvVariable._retrieve(env, prefix)` (env.py lines 82 to 155), paired
with the list of deprecation warnings it emits: look up
`prefix + _normalized(name)`; if absent, scan the deprecation aliases; if
still absent, return the default when one is declared and raise
`KeyError("<full_name> is not set")` otherwise; a raw value found either
way goes through the coercion tail. -/
def EnvVariable.retrieve (v : EnvVariable) (env : EnvObj) (pfx : Str) :
    List Str × Except PyErr PyVal :=
  let fullName := pfx ++ normalized v.name
  match lookupRaw env.source fullName with
  | some raw => ([], coerceRaw v env raw)
  | none =>
    match scanDeprecations env.source pfx fullName v.deprecations with
    | some (w, raw) => ([w], coerceRaw v env raw)
    | none =>
      match v.default with
      | .val d => ([], .ok d)
      | .noDefault => ([], .error (.keyError (fullName ++ S " is not set")))

/-- `EnvVariable.__call__(env, prefix)` (env.py lines 157 to 164): retrieve
the value, then run the validator on it — whatever `_retrieve` returned,
a declared default included; a validator exception propagates unchanged. -/
def EnvVariable.call (v : EnvVariable) (env : EnvObj) (pfx : Str) :
    List Str × Except PyErr PyVal :=
  let (ws, r) := v.retrieve env pfx
  match r with
  | .error e => (ws, .error e)
  | .ok value =>
    match v.validator with
    | none => (ws, .ok value)
    | some f =>
      match f value with
      | .ok _ => (ws, .ok value)
      | .error e => (ws, .error e)

-- Ground checks of the resolution engine against CPython behaviour.
example :
    EnvVariable.retrieve { type := .int, name := S "n" }
      ⟨[(S "N", S "42")], defaultCfg.truthy, defaultCfg.itemSep, defaultCfg.valueSep⟩ [] =
    ([], .ok (.int 42)) := rfl
example :
    EnvVariable.retrieve { type := .bool, name := S "b" }
      ⟨[(S "B", S "YeS")], defaultCfg.truthy, defaultCfg.itemSep, defaultCfg.valueSep⟩ [] =
    ([], .ok (.bool true)) := rfl
example :
    EnvVariable.retrieve { type := .list, name := S "l" }
      ⟨[(S "L", S "a,b,c")], defaultCfg.truthy, defaultCfg.itemSep, defaultCfg.valueSep⟩ [] =
    ([], .ok (.list [.str (S "a"), .str (S "b"), .str (S "c")])) := rfl
example :
    EnvVariable.retrieve { type := .dict, name := S "d" }
      ⟨[(S "D", S "a:1,b:2")], defaultCfg.truthy, defaultCfg.itemSep, defaultCfg.valueSep⟩ [] =
    ([], .ok (.dict [(.str (S "a"), .str (S "1")), (.str (S "b"), .str (S "2"))])) := rfl

/-- A constructed configuration instance is a bag of attributes in
assignment order; an attribute is either a resolved value or a nested
instance. -/
inductive IVal where
  | val (v : PyVal)
  | sub (inst : List (Str × IVal))

/-- The attribute bag of a constructed `Env` instance. -/
abbrev Inst := List (Str × IVal)

/-- The `DerivedVariable` descriptor (env.py lines 167 to 182): a type tag
and a derivation run on the populated instance.  The model hands the
derivation the attribute bag; the live Python object additionally exposes
`source` and the prefix, which no claim involves. -/
structure DerivedVariable where
  type : PyType
  derivation : Inst → Except PyErr PyVal

/-- `DerivedVariable.__call__(env)` (env.py lines 173 to 182): run the
derivation and check its result against the declared type. -/
def DerivedVariable.call (d : DerivedVariable) (inst : Inst) : Except PyErr PyVal :=
  match d.derivation inst with
  | .error e => .error e
  | .ok v =>
    if check_type v d.type then .ok v
    else .error (.typeError (S "derivation returned the wrong type"))

/- An `Env` subclass as a schema value: its `__prefix__`, its `__item__`
override, its class-level knobs, and its class dict in declaration order.
`Members` is the declaration list (attribute name with the declared
member); Python class dict keys are unique and ordered. -/
mutual
inductive Member where
  | var (v : EnvVariable) : Member
  | derived (d : DerivedVariable) : Member
  | nested (s : Schema) : Member
inductive Schema where
  | mk (pfx : Str) (item : Option Str) (cfg : EnvCfg) (members : Members) : Schema
inductive Members where
  | nil : Members
  | cons (name : Str) (m : Member) (rest : Members) : Members
end

/-- The declared `__prefix__` of a schema. -/
def Schema.pfx : Schema → Str
  | .mk p _ _ _ => p

/-- The declared `__item__` of a schema. -/
def Schema.item : Schema → Option Str
  | .mk _ i _ _ => i

/-- The class-level knobs of a schema. -/
def Schema.cfg : Schema → EnvCfg
  | .mk _ _ c _ => c

/-- The class dict of a schema, in declaration order. -/
def Schema.members : Schema → Members
  | .mk _ _ _ ms => ms

/-- `source or os.environ` (env.py line 223): a `None` or empty source
mapping is falsy and is replaced by the process environment. -/
def effectiveSource (source : Option (List (Str × Str))) (procEnv : List (Str × Str)) :
    List (Str × Str) :=
  match source with
  | none => procEnv
  | some [] => procEnv
  | some src => src

/-- The full-prefix computation of `Env.__init__` (env.py lines 226 to
232): the parent full prefix (empty without a parent) concatenated with the
normalized own prefix, then a separator underscore appended when the result
is truthy and does not already end with one. -/
def fullPfx (parentFull own : Str) : Str :=
  let p := parentFull ++ normalized own
  if p ≠ [] ∧ ¬ endsWithS p (S "_") then p ++ S "_" else p

/-- The `__item__` renaming rule (env.py lines 240 to 244): a nested schema
whose `__item__` is set and differs from the attribute name is stored under
`__item__` instead.  (The source also rewrites the class dict of the
enclosing spec the first time this happens — a class-level side effect
outside a per-construction model; the attribute actually assigned on the
instance is what matters here.) -/
def itemNameOf (child : Schema) (declared : Str) : Str :=
  match child.item with
  | some it => if it == declared then declared else it
  | none => declared

/-- The second pass of `Env.__init__` (env.py lines 249 to 250): run the
collected derived variables in declaration order, each on the instance as
populated by the first pass plus the earlier derived variables; a failure
aborts construction. -/
def runDeriveds : List (Str × DerivedVariable) → List Str → Inst →
    List Str × Except PyErr Inst
  | [], ws, attrs => (ws, .ok attrs)
  | (n, d) :: rest, ws, attrs =>
    match d.call attrs with
    | .error e => (ws, .error e)
    | .ok v => runDeriveds rest ws (attrs ++ [(n, .val v)])

/- `Env.__init__(source, parent)` (env.py lines 221 to 250), returning the
emitted deprecation warnings and either the fully populated attribute bag
or the first exception raised.  `constructMembers` is the single loop over
the class dict (env.py lines 236 to 247): variables are resolved and
assigned in order, nested schemas are constructed with the original
`source` argument and the current instance as parent, and derived members
are collected for the second pass. -/
mutual
def constructSchema (s : Schema) (source : Option (List (Str × Str)))
    (procEnv : List (Str × Str)) (parentFull : Str) : List Str × Except PyErr Inst :=
  match s with
  | .mk pfx _ cfg ms =>
    let env : EnvObj := ⟨effectiveSource source procEnv, cfg.truthy, cfg.itemSep, cfg.valueSep⟩
    constructMembers ms env source procEnv (fullPfx parentFull pfx) [] [] []
def constructMembers (ms : Members) (env : EnvObj) (source : Option (List (Str × Str)))
    (procEnv : List (Str × Str)) (fp : Str) (ws : List Str) (attrs : Inst)
    (ders : List (Str × DerivedVariable)) : List Str × Except PyErr Inst :=
  match ms with
  | .nil => runDeriveds ders ws attrs
  | .cons name (.var v) rest =>
    match v.call env fp with
    | (w, .error e) => (ws ++ w, .error e)
    | (w, .ok value) =>
      constructMembers rest env source procEnv fp (ws ++ w) (attrs ++ [(name, .val value)]) ders
  | .cons name (.nested child) rest =>
    match constructSchema child source procEnv fp with
    | (w, .error e) => (ws ++ w, .error e)
    | (w, .ok inst) =>
      constructMembers rest env source procEnv fp (ws ++ w)
        (attrs ++ [(itemNameOf child name, .sub inst)]) ders
  | .cons name (.derived d) rest =>
    constructMembers rest env source procEnv fp ws attrs (ders ++ [(name, d)])
end

/-- The first pass alone, as §4.5 of the specification words it: resolve
every plain variable and construct every nested schema in declaration
order, skipping derived members; any failure aborts. -/
def pass1 (ms : Members) (env : EnvObj) (source : Option (List (Str × Str)))
    (procEnv : List (Str × Str)) (fp : Str) (ws : List Str) (attrs : Inst) :
    List Str × Except PyErr Inst :=
  match ms with
  | .nil => (ws, .ok attrs)
  | .cons name (.var v) rest =>
    match v.call env fp with
    | (w, .error e) => (ws ++ w, .error e)
    | (w, .ok value) =>
      pass1 rest env source procEnv fp (ws ++ w) (attrs ++ [(name, .val value)])
  | .cons name (.nested child) rest =>
    match constructSchema child source procEnv fp with
    | (w, .error e) => (ws ++ w, .error e)
    | (w, .ok inst) =>
      pass1 rest env source procEnv fp (ws ++ w) (attrs ++ [(itemNameOf child name, .sub inst)])
  | .cons _ (.derived _) rest => pass1 rest env source procEnv fp ws attrs

/-- The derived members of a class dict, in declaration order. -/
def derivedsOf : Members → List (Str × DerivedVariable)
  | .nil => []
  | .cons name (.derived d) rest => (name, d) :: derivedsOf rest
  | .cons _ _ rest => derivedsOf rest

/-- Construction as the specification describes it (§4.5): a first pass
over all plain variables and nested schemas, then the derived variables in
declaration order on the result; a failure in either pass aborts the whole
construction, so an instance is produced only when every member resolved. -/
def constructTwoPhase (s : Schema) (source : Option (List (Str × Str)))
    (procEnv : List (Str × Str)) (parentFull : Str) : List Str × Except PyErr Inst :=
  match s with
  | .mk pfx _ cfg ms =>
    let env : EnvObj := ⟨effectiveSource source procEnv, cfg.truthy, cfg.itemSep, cfg.valueSep⟩
    match pass1 ms env source procEnv (fullPfx parentFull pfx) [] [] with
    | (ws, .ok attrs) => runDeriveds (derivedsOf ms) ws attrs
    | (ws, .error e) => (ws, .error e)

/-- Decimal digits of a natural number; the fuel argument (always at least
the number itself plus one, far above the digit count) makes the definition
structurally recursive. -/
def natDigits : Nat → Nat → Str
  | 0, _ => []
  | fuel + 1, n =>
    if n < 10 then [Char.ofNat (48 + n)]
    else natDigits fuel (n / 10) ++ [Char.ofNat (48 + n % 10)]

/-- Python `str(n)` for an integer. -/
def intToStr : Int → Str
  | .ofNat n => natDigits (n + 1) n
  | .negSucc m => '-' :: natDigits (m + 2) (m + 1)

/-- The single-quote character, used by Python `repr` of strings. -/
def sqC : Char := Char.ofNat 39

/- Python `repr` of a value (`pyReprL`, `pyReprP` render element and pair
lists).  Containers render their elements by `repr`; a string renders
single-quoted (CPython switches quote style when the string itself contains
quotes, a corner no claim exercises, as are the trailing comma of a
one-element tuple repr and the `set()` form of the empty set). -/
mutual
def pyRepr : PyVal → Str
  | .str s => sqC :: s ++ [sqC]
  | .int n => intToStr n
  | .bool b => if b then S "True" else S "False"
  | .list xs => S "[" ++ pyReprL xs ++ S "]"
  | .tuple xs => S "(" ++ pyReprL xs ++ S ")"
  | .set xs => S "\x7b" ++ pyReprL xs ++ S "\x7d"
  | .dict xs => S "\x7b" ++ pyReprP xs ++ S "\x7d"
def pyReprL : List PyVal → Str
  | [] => []
  | [x] => pyRepr x
  | x :: rest => pyRepr x ++ S ", " ++ pyReprL rest
def pyReprP : List (PyVal × PyVal) → Str
  | [] => []
  | [(k, v)] => pyRepr k ++ S ": " ++ pyRepr v
  | (k, v) :: rest => pyRepr k ++ S ": " ++ pyRepr v ++ S ", " ++ pyReprP rest
end

/-- Python `str(v)`: the string itself for a string, `repr` otherwise for
the value kinds the engine handles. -/
def pyStr : PyVal → Str
  | .str s => s
  | v => pyRepr v

/-- `str(self.default)`: the `NoDefault` sentinel renders as the empty
string (`NoDefaultType.__str__`, env.py lines 17 to 19). -/
def defaultStr : Default → Str
  | .noDefault => []
  | .val v => pyStr v

/-- Python truthiness of an optional string (`x or y` falls through to `y`
when `x` is `None` or empty). -/
def pyOrS : Option Str → Option Str
  | some [] => none
  | some s => some s
  | none => none

/-- `type.__name__` of a plain class; a bare `typing.Union` has no
`__name__`, so accessing it raises AttributeError (env.py line 407 does so
for a union-typed variable without `help_type`). -/
def typeNameD : PyType → Option Str
  | .str => some (S "str")
  | .int => some (S "int")
  | .bool => some (S "bool")
  | .list => some (S "list")
  | .tuple => some (S "tuple")
  | .set => some (S "set")
  | .dict => some (S "dict")
  | .union _ => none

/-- The help text of an entry (env.py lines 399 to 402): strip the declared
help, then append a period when the result is non-empty and does not
already end with one. -/
def helpMsg (h : Option Str) : Str :=
  match h with
  | none => []
  | some h0 =>
    let m := trimS h0
    if m ≠ [] ∧ ¬ endsWithS m (S ".") then m ++ S "." else m

/-- The displayed type of an entry,
`v.help_type or "``%s``" % v.type.__name__` (env.py line 407): the declared
`help_type` when truthy, else the backtick-quoted class name — an
AttributeError for a bare union, which has no `__name__`. -/
def dispTypeOf (v : EnvVariable) : Except PyErr Str :=
  match pyOrS v.help_type with
  | some s => .ok s
  | none =>
    match typeNameD v.type with
    | some n => .ok (S "``" ++ n ++ S "``")
    | none => .error (.attributeError (S "__name__"))

/-- One `help_info` entry for a variable (env.py lines 404 to 411): the
backtick-quoted prefixed normalized name, the displayed type, the declared
`help_default` or `str(default)`, and the help text. -/
def mkEntry (fp : Str) (v : EnvVariable) : Except PyErr (Str × Str × Str × Str) :=
  match dispTypeOf v with
  | .error e => .error e
  | .ok dispType =>
    .ok (S "``" ++ fp ++ normalized v.name ++ S "``",
         dispType,
         (match pyOrS v.help_default with
          | some s => s
          | none => defaultStr v.default),
         helpMsg v.help)

/-- Strict lexicographic string comparison by code point, Python `a < b`. -/
def strLtB : Str → Str → Bool
  | [], [] => false
  | [], _ :: _ => true
  | _ :: _, [] => false
  | a :: as, b :: bs =>
    if a.toNat < b.toNat then true
    else if b.toNat < a.toNat then false
    else strLtB as bs

/-- Stable insertion of `x` into a list sorted by the strict comparison
`lt`: walk past strictly smaller elements, so `x` lands before any element
it ties with — the placement Python`s stable `sorted` gives an element
that came later in the input. -/
def insertLt {α : Type} (lt : α → α → Bool) (x : α) : List α → List α
  | [] => [x]
  | y :: ys => if lt y x then y :: insertLt lt x ys else x :: y :: ys

/-- Stable sort by the strict comparison `lt`, extensionally Python
`sorted(l, key=...)` for a total preorder. -/
def sortLt {α : Type} (lt : α → α → Bool) : List α → List α
  | [] => []
  | x :: xs => insertLt lt x (sortLt lt xs)

/-- The variable members of a class dict, in declaration order (the
`config.values()` filter of env.py line 394). -/
def varsOf : Members → List EnvVariable
  | .nil => []
  | .cons _ (.var v) rest => v :: varsOf rest
  | .cons _ _ rest => varsOf rest

/-- The comparison `sorted(vars, key=lambda v: v.name)` sorts by. -/
def nameLt (a b : EnvVariable) : Bool := strLtB a.name b.name

/-- Build the entries of the sorted variable list, stopping at the first
entry that raises (as the exception propagates out of `help_info`). -/
def mapEntries (fp : Str) : List EnvVariable → Except PyErr (List (Str × Str × Str × Str))
  | [] => .ok []
  | v :: rest =>
    match mkEntry fp v with
    | .error e => .error e
    | .ok ent =>
      match mapEntries fp rest with
      | .error e => .error e
      | .ok tl => .ok (ent :: tl)

/-- `add_entries(full_prefix, config)` (env.py lines 391 to 411): the
entries of the variables of one schema, sorted by declared name. -/
def addEntries (fp : Str) (ms : Members) : Except PyErr (List (Str × Str × Str × Str)) :=
  mapEntries fp (sortLt nameLt (varsOf ms))

/-- The prefix accumulation of the `help_info` loop (env.py lines 417 to
419): append the normalized own prefix, then a separator underscore
whenever the result does not already end with one — with no emptiness
guard, unlike the construction-time computation. -/
def helpStepPfx (fullP ownP : Str) : Str :=
  let np := fullP ++ normalized ownP
  if endsWithS np (S "_") then np else np ++ S "_"

/-- The nested-schema children of a class dict for the `help_info`
traversal (env.py lines 425 to 432), each tagged with the accumulated
prefix and the key `"parent"` excluded, sorted by declared `__prefix__`. -/
def subconfigsOf (fp : Str) : Members → List (Str × Schema)
  | .nil => []
  | .cons name (.nested child) rest =>
    if name == S "parent" then subconfigsOf fp rest
    else (fp, child) :: subconfigsOf fp rest
  | .cons _ _ rest => subconfigsOf fp rest

/-- `subconfigsOf`, sorted as env.py line 431 sorts it. -/
def subconfigsSorted (fp : Str) (ms : Members) : List (Str × Schema) :=
  sortLt (fun a b => strLtB a.2.pfx b.2.pfx) (subconfigsOf fp ms)

/- Sizes of the schema tree, used as fuel for the `help_info` worklist. -/
mutual
def sizeSch : Schema → Nat
  | .mk _ _ _ ms => sizeMems ms + 1
def sizeMems : Members → Nat
  | .nil => 0
  | .cons _ m rest => sizeMem m + sizeMems rest
def sizeMem : Member → Nat
  | .var _ => 1
  | .derived _ => 1
  | .nested s => sizeSch s + 1
end

/-- The `help_info` worklist loop (env.py lines 413 to 434).  The source
keeps a list popped from the back (`configs.pop()`) into which the sorted
children are spliced at the front (`configs[0:0] = subconfigs`); the model
keeps that list reversed, so popping the back becomes taking the head and
splicing at the front becomes appending the reversed children.  Without
`recursive` the loop breaks after the first schema.  The fuel counts loop
iterations; `help_info` supplies the schema-tree size, an upper bound on
the number of schemas visited, so the fuel-zero branch is never taken. -/
def helpLoop (recursive : Bool) : Nat → List (Str × Schema) →
    Except PyErr (List (Str × Str × Str × Str))
  | _, [] => .ok []
  | 0, _ :: _ => .ok []
  | fuel + 1, (fullP, c) :: rest =>
    let np := helpStepPfx fullP c.pfx
    match addEntries np c.members with
    | .error e => .error e
    | .ok es =>
      if recursive then
        match helpLoop recursive fuel (rest ++ (subconfigsSorted np c.members).reverse) with
        | .error e => .error e
        | .ok more => .ok (es ++ more)
      else .ok es

/-- `Env.help_info(recursive)` (env.py lines 377 to 436), starting from the
worklist `[("", cls)]`. -/
def help_info (c : Schema) (recursive : Bool) : Except PyErr (List (Str × Str × Str × Str)) :=
  helpLoop recursive (sizeSch c) [([], c)]

-- Ground checks of the help layer.
example : intToStr 5 = S "5" := rfl
example : intToStr (-42) = S "-42" := rfl
example : pyStr (.str (S "x")) = S "x" := rfl
example :
    help_info (.mk (S "ok") none defaultCfg
      (.cons (S "foo") (.var { type := .int, name := S "foo", default := .val (.int 5) }) .nil))
      false =
    .ok [(S "``OK_FOO``", S "``int``", S "5", S "")] := rfl

/-- An `EnvObj` with the default knobs over a given source mapping. -/
def envWith (src : List (Str × Str)) : EnvObj :=
  ⟨src, defaultCfg.truthy, defaultCfg.itemSep, defaultCfg.valueSep⟩

/-- When every deprecated alias is absent from the source, the deprecation
scan finds nothing. -/
theorem scanDeprecations_none (src : List (Str × Str)) (pfx fn : Str)
    (deps : List (Str × Option Str × Option Str))
    (h : ∀ e ∈ deps, lookupRaw src (pfx ++ normalized e.1) = none) :
    scanDeprecations src pfx fn deps = none := by
  induction deps with
  | nil => rfl
  | cons hd tl ih =>
    obtain ⟨name, dpw, rmw⟩ := hd
    have h0 : lookupRaw src (pfx ++ normalized name) = none := h (name, dpw, rmw) (by simp)
    simp only [scanDeprecations, h0]
    exact ih fun e he => h e (by simp [he])

/-- The deprecation scan returns the first present alias with its warning,
ignoring everything after it. -/
theorem scanDeprecations_found (src : List (Str × Str)) (pfx fn : Str)
    (pre : List (Str × Option Str × Option Str)) (name : Str) (dpw rmw : Option Str)
    (rest : List (Str × Option Str × Option Str)) (raw : Str)
    (hpre : ∀ e ∈ pre, lookupRaw src (pfx ++ normalized e.1) = none)
    (hhit : lookupRaw src (pfx ++ normalized name) = some raw) :
    scanDeprecations src pfx fn (pre ++ (name, dpw, rmw) :: rest) =
      some (warningMessage (pfx ++ normalized name) dpw rmw fn, raw) := by
  induction pre with
  | nil => simp only [List.nil_append, scanDeprecations, hhit]
  | cons hd tl ih =>
    obtain ⟨n0, d0, r0⟩ := hd
    have h0 : lookupRaw src (pfx ++ normalized n0) = none := hpre (n0, d0, r0) (by simp)
    simp only [List.cons_append, scanDeprecations, h0]
    exact ih fun e he => hpre e (by simp [he])

/-- Splitting the empty string yields one empty-string piece, whatever the
separator. -/
theorem splitOnS_nil (sep : Str) : splitOnS sep [] = [[]] := by
  cases sep <;> rfl

/-- The union-typed variable for the C1 counterexample, declared with the
member order `{int, str}` of the claim. -/
def c1Var : EnvVariable := { type := .union [.int, .str], name := S "X" }

/-- C1, counterexample.  With declared type `Union[int, str]` and raw
`"42"`, the engine returns the raw string `"42"`, not the integer `42`: the
`_check_type(raw, self.type)` early return of env.py line 145 fires because
the raw string is an instance of the `str` member, so the constructor loop
of lines 149 to 153 is never reached. -/
theorem c1_union_counterexample :
    EnvVariable.retrieve c1Var (envWith [(S "X", S "42")]) [] = ([], .ok (.str (S "42"))) ∧
    PyVal.str (S "42") ≠ PyVal.int 42 :=
  ⟨rfl, fun h => PyVal.noConfusion h⟩

/-- C1, amended.  Union coercion first returns the raw string unchanged
whenever it is an instance of one of the member types — always the case
when `str` is a member, so `Union[int, str]` never parses the integer.
Only otherwise are the member constructors tried in declared order, and
only a TypeError moves to the next member: a first success is returned
(`Union[int, bool]` on `"7"` gives `int 7`, `Union[bool, int]` on `"7"`
gives `True`), while any other failure, such as the ValueError of `int` on
unparsable input, propagates immediately instead of trying later members. -/
theorem c1_union_amended :
    (∀ (args : List PyType) (env : EnvObj) (nm raw : Str) (df : Default)
       (deps : List (Str × Option Str × Option Str)) (h1 h2 h3 : Option Str),
       PyType.str ∈ args →
       coerceRaw ⟨.union args, nm, none, none, none, df, deps, h1, h2, h3⟩ env raw =
         .ok (.str raw)) ∧
    (∀ env : EnvObj,
       coerceRaw { type := .union [.int, .bool], name := S "u" } env (S "7") =
         .ok (.int 7)) ∧
    (∀ env : EnvObj,
       coerceRaw { type := .union [.bool, .int], name := S "u" } env (S "7") =
         .ok (.bool true)) ∧
    (∀ env : EnvObj,
       coerceRaw { type := .union [.int, .bool], name := S "u" } env (S "x") =
         .error (.valueError (S "invalid literal for int() with base 10: " ++ S "x"))) := by
  refine ⟨?_, fun env => rfl, fun env => rfl, fun env => rfl⟩
  intro args env nm raw df deps h1 h2 h3 hmem
  have hct : check_type (.str raw) (.union args) = true := by
    simp only [check_type, List.any_eq_true]
    exact ⟨.str, hmem, rfl⟩
  simp [coerceRaw, hct]

/-- C1, witness for the amended theorem at `Union[int, str]` and raw
`"42"`. -/
theorem c1_union_amended_witness :
    coerceRaw ⟨.union [.int, .str], S "X", none, none, none, .noDefault, [], none, none, none⟩
      (envWith []) (S "42") = .ok (.str (S "42")) :=
  c1_union_amended.1 [.int, .str] (envWith []) (S "X") (S "42") .noDefault [] none none none
    (by simp)

/-- The variable of the C2 counterexample: a declared default together with
a validator that always raises. -/
def c2Var : EnvVariable :=
  { type := .int, name := S "N",
    validator := some (fun _ => .error (.userError (S "bad"))),
    default := .val (.int 5) }

/-- C2, counterexample.  The claim says resolution ends when the default is
returned, the validator not being applied to it; but `__call__` (env.py
lines 157 to 164) validates whatever `_retrieve` returned, a declared
default included: with the variable absent, a default of `5` and an
always-raising validator, resolution raises instead of returning `5`. -/
theorem c2_default_validator_counterexample :
    EnvVariable.call c2Var (envWith []) [] = ([], .error (.userError (S "bad"))) ∧
    EnvVariable.call c2Var (envWith []) [] ≠ ([], .ok (.int 5)) :=
  ⟨rfl, fun h => by
    rw [show EnvVariable.call c2Var (envWith []) [] = ([], .error (.userError (S "bad")))
      from rfl] at h
    simpa using congrArg Prod.snd h⟩

/-- C2, amended.  For a variable whose key and deprecated aliases are all
absent: a declared default is returned without coercion, but the validator
is still applied to it (returning the default when it passes, propagating
its exception when it raises); without a default, resolution fails with
`KeyError("<full name> is not set")`.  When a raw value is present, the
declared default never influences the outcome, whatever it is — no default
substitution on coercion failure. -/
theorem c2_default_amended :
    (∀ (v : EnvVariable) (env : EnvObj) (pfx : Str) (d : PyVal),
       lookupRaw env.source (pfx ++ normalized v.name) = none →
       (∀ e ∈ v.deprecations, lookupRaw env.source (pfx ++ normalized e.1) = none) →
       v.default = .val d → v.validator = none →
       v.call env pfx = ([], .ok d)) ∧
    (∀ (v : EnvVariable) (env : EnvObj) (pfx : Str) (d : PyVal)
       (f : PyVal → Except PyErr Unit),
       lookupRaw env.source (pfx ++ normalized v.name) = none →
       (∀ e ∈ v.deprecations, lookupRaw env.source (pfx ++ normalized e.1) = none) →
       v.default = .val d → v.validator = some f →
       v.call env pfx =
         (match f d with
          | .ok _ => ([], Except.ok d)
          | .error e => ([], Except.error e))) ∧
    (∀ (v : EnvVariable) (env : EnvObj) (pfx : Str),
       lookupRaw env.source (pfx ++ normalized v.name) = none →
       (∀ e ∈ v.deprecations, lookupRaw env.source (pfx ++ normalized e.1) = none) →
       v.default = .noDefault →
       v.call env pfx =
         ([], .error (.keyError (pfx ++ normalized v.name ++ S " is not set")))) ∧
    (∀ (v : EnvVariable) (env : EnvObj) (pfx raw : Str) (d1 d2 : Default),
       lookupRaw env.source (pfx ++ normalized v.name) = some raw →
       EnvVariable.call { v with default := d1 } env pfx =
         EnvVariable.call { v with default := d2 } env pfx) := by
  have habs : ∀ (v : EnvVariable) (env : EnvObj) (pfx : Str),
      lookupRaw env.source (pfx ++ normalized v.name) = none →
      (∀ e ∈ v.deprecations, lookupRaw env.source (pfx ++ normalized e.1) = none) →
      v.retrieve env pfx =
        (match v.default with
         | .val d => ([], Except.ok d)
         | .noDefault =>
           ([], .error (.keyError (pfx ++ normalized v.name ++ S " is not set")))) := by
    intro v env pfx hmain hdeps
    have hscan := scanDeprecations_none env.source pfx (pfx ++ normalized v.name)
      v.deprecations hdeps
    simp only [EnvVariable.retrieve, hmain, hscan]
  refine ⟨?_, ?_, ?_, ?_⟩
  · intro v env pfx d hmain hdeps hdef hval
    simp only [EnvVariable.call, habs v env pfx hmain hdeps, hdef, hval]
  · intro v env pfx d f hmain hdeps hdef hval
    cases hfd : f d <;>
      simp only [EnvVariable.call, habs v env pfx hmain hdeps, hdef, hval, hfd]
  · intro v env pfx hmain hdeps hdef
    simp only [EnvVariable.call, habs v env pfx hmain hdeps, hdef]
  · intro v env pfx raw d1 d2 hmain
    simp only [EnvVariable.call, EnvVariable.retrieve, hmain]
    rfl

/-- C2, witness for the amended theorem: key absent, default `5`, no
validator, resolution returns `5`; and at the third part, no default and
key absent raises the KeyError naming `N`. -/
theorem c2_default_amended_witness :
    EnvVariable.call { type := .int, name := S "N", default := .val (.int 5) }
      (envWith []) [] = ([], .ok (.int 5)) :=
  c2_default_amended.1 { type := .int, name := S "N", default := .val (.int 5) }
    (envWith []) [] (.int 5) rfl (by simp) rfl rfl

/-- C3, confirmed.  When the primary fully qualified key is present its
value is used with no warning, whatever the deprecation list and whatever
other aliases are present; when it is absent, the deprecation list is
scanned in order, the first present alias supplies the raw value together
with exactly one warning — the exact source message with the deprecated
key, the optional version clauses and the replacement key — and the result
is the same as if the later aliases were not declared at all. -/
theorem c3_deprecations_confirmed :
    (∀ (v : EnvVariable) (env : EnvObj) (pfx raw : Str),
       lookupRaw env.source (pfx ++ normalized v.name) = some raw →
       v.retrieve env pfx = ([], coerceRaw v env raw)) ∧
    (∀ (v : EnvVariable) (env : EnvObj) (pfx raw name : Str) (dpw rmw : Option Str)
       (pre rest : List (Str × Option Str × Option Str)),
       lookupRaw env.source (pfx ++ normalized v.name) = none →
       v.deprecations = pre ++ (name, dpw, rmw) :: rest →
       (∀ e ∈ pre, lookupRaw env.source (pfx ++ normalized e.1) = none) →
       lookupRaw env.source (pfx ++ normalized name) = some raw →
       v.retrieve env pfx =
         ([warningMessage (pfx ++ normalized name) dpw rmw (pfx ++ normalized v.name)],
          coerceRaw v env raw) ∧
       v.retrieve env pfx =
         EnvVariable.retrieve { v with deprecations := pre ++ [(name, dpw, rmw)] }
           env pfx) := by
  refine ⟨?_, ?_⟩
  · intro v env pfx raw hmain
    simp only [EnvVariable.retrieve, hmain]
  · intro v env pfx raw name dpw rmw pre rest hmain hdeps hpre hhit
    have hscan := scanDeprecations_found env.source pfx (pfx ++ normalized v.name)
      pre name dpw rmw rest raw hpre hhit
    have hscan2 := scanDeprecations_found env.source pfx (pfx ++ normalized v.name)
      pre name dpw rmw [] raw hpre hhit
    constructor
    · simp only [EnvVariable.retrieve, hmain, hdeps, hscan]
    · simp only [EnvVariable.retrieve, hmain, hdeps, hscan, hscan2]
      rfl

/-- C3, witness: a variable `NEW` deprecated from `OLD` with version
clauses, the source holding only `OLD=5`, resolves through the alias with
exactly the one warning of the source format string. -/
theorem c3_deprecations_witness :
    EnvVariable.retrieve
      { type := .int, name := S "NEW",
        deprecations := [(S "OLD", some (S "1.0"), some (S "2.0"))] }
      (envWith [(S "OLD", S "5")]) [] =
      ([warningMessage (S "OLD") (some (S "1.0")) (some (S "2.0")) (S "NEW")],
       coerceRaw
         { type := .int, name := S "NEW",
           deprecations := [(S "OLD", some (S "1.0"), some (S "2.0"))] }
         (envWith [(S "OLD", S "5")]) (S "5")) ∧
    EnvVariable.retrieve
      { type := .int, name := S "NEW",
        deprecations := [(S "OLD", some (S "1.0"), some (S "2.0"))] }
      (envWith [(S "OLD", S "5")]) [] =
      EnvVariable.retrieve
        { type := .int, name := S "NEW",
          deprecations := [] ++ [(S "OLD", some (S "1.0"), some (S "2.0"))] }
        (envWith [(S "OLD", S "5")]) [] := by
  have h := (c3_deprecations_confirmed.2
    { type := .int, name := S "NEW",
      deprecations := [(S "OLD", some (S "1.0"), some (S "2.0"))] }
    (envWith [(S "OLD", S "5")]) [] (S "5") (S "OLD") (some (S "1.0")) (some (S "2.0"))
    [] [] rfl rfl (by simp) rfl)
  exact h

/-- The full-prefix computation as §4.5 step 1 of the specification words
it: the parent full prefix concatenated with the normalized own prefix,
with a single separator underscore appended when the result is non-empty
and does not already end with one. -/
def fullPfxSpec (parentFull own : Str) : Str :=
  let p := parentFull ++ normalized own
  if p = [] then p
  else if endsWithS p (S "_") then p
  else p ++ S "_"

/-- The `HOST` variable of the nested-prefix example. -/
def hostVar : EnvVariable := { type := .str, name := S "host" }

/-- The nested schema with prefix `DB` declaring `HOST`. -/
def dbSchema : Schema :=
  .mk (S "DB") none defaultCfg (.cons (S "host") (.var hostVar) .nil)

/-- The top-level schema with prefix `APP` containing `dbSchema`. -/
def appSchema : Schema :=
  .mk (S "APP") none defaultCfg (.cons (S "db") (.nested dbSchema) .nil)

/-- C6, confirmed.  The constructed full prefix is exactly the
specification formula — parent full prefix concatenated with the
normalized own prefix, one separator underscore appended when the result
is non-empty and does not already end with one — and consequently the
`APP`/`DB`/`HOST` nesting looks up exactly the key `APP_DB_HOST`: with the
source holding that key construction succeeds from it, and with the key
absent construction fails with the KeyError naming it. -/
theorem c6_prefix_confirmed :
    (∀ parentFull own : Str, fullPfx parentFull own = fullPfxSpec parentFull own) ∧
    constructSchema appSchema (some [(S "APP_DB_HOST", S "h")]) [] [] =
      ([], .ok [(S "db", .sub [(S "host", .val (.str (S "h")))])]) ∧
    constructSchema appSchema (some [(S "OTHER", S "x")]) [] [] =
      ([], .error (.keyError (S "APP_DB_HOST is not set"))) := by
  refine ⟨?_, rfl, rfl⟩
  intro parentFull own
  unfold fullPfx fullPfxSpec
  by_cases h : (parentFull ++ normalized own) = []
  · simp [h]
  · by_cases h2 : endsWithS (parentFull ++ normalized own) (S "_") <;> simp [h, h2]

/-- Whether a type tag is a `typing.Union`. -/
def isUnionB : PyType → Bool
  | .union _ => true
  | _ => false

/-- The union-typed variable with the sentinel default for the C7
counterexample. -/
def c7UnionVar : EnvVariable := { type := .union [.int, .str], name := S "X" }

/-- C7, counterexample.  Declaring a `Union[int, str]` variable with the
sentinel no-default raises the declaration-time TypeError, because the
union branch of `EnvVariable.__init__` (env.py lines 62 to 66) checks
`isinstance(default, type.__args__)` with no exemption for the sentinel —
refuting the claim that a sentinel default always succeeds. -/
theorem c7_union_nodefault_counterexample :
    declareVar c7UnionVar = .error (.typeError (S "default must be either of these types")) ∧
    c7UnionVar.default = .noDefault :=
  ⟨rfl, rfl⟩

/-- C7, amended.  For a non-union declared type the declaration-time
TypeError fires exactly when the default is not the sentinel and not an
instance of the type; for a union type the check is unconditional — the
default must be an instance of one of the member types, and since the
sentinel never is, a union-typed variable declared with the sentinel
no-default always raises. -/
theorem c7_declaration_amended :
    (∀ (args : List PyType) (nm : Str) (prs : Option (Str → Except PyErr PyVal))
       (vld : Option (PyVal → Except PyErr Unit)) (mp : Option MapFn)
       (deps : List (Str × Option Str × Option Str)) (h1 h2 h3 : Option Str),
       declareVar ⟨.union args, nm, prs, vld, mp, .noDefault, deps, h1, h2, h3⟩ =
         .error (.typeError (S "default must be either of these types"))) ∧
    (∀ (args : List PyType) (d : PyVal) (nm : Str) (prs : Option (Str → Except PyErr PyVal))
       (vld : Option (PyVal → Except PyErr Unit)) (mp : Option MapFn)
       (deps : List (Str × Option Str × Option Str)) (h1 h2 h3 : Option Str),
       args.any (fun a => isInstance d a) = true →
       declareVar ⟨.union args, nm, prs, vld, mp, .val d, deps, h1, h2, h3⟩ =
         .ok ⟨.union args, nm, prs, vld, mp, .val d, deps, h1, h2, h3⟩) ∧
    (∀ (args : List PyType) (d : PyVal) (nm : Str) (prs : Option (Str → Except PyErr PyVal))
       (vld : Option (PyVal → Except PyErr Unit)) (mp : Option MapFn)
       (deps : List (Str × Option Str × Option Str)) (h1 h2 h3 : Option Str),
       args.any (fun a => isInstance d a) = false →
       declareVar ⟨.union args, nm, prs, vld, mp, .val d, deps, h1, h2, h3⟩ =
         .error (.typeError (S "default must be either of these types"))) ∧
    (∀ (t : PyType) (nm : Str) (prs : Option (Str → Except PyErr PyVal))
       (vld : Option (PyVal → Except PyErr Unit)) (mp : Option MapFn)
       (deps : List (Str × Option Str × Option Str)) (h1 h2 h3 : Option Str),
       isUnionB t = false →
       declareVar ⟨t, nm, prs, vld, mp, .noDefault, deps, h1, h2, h3⟩ =
         .ok ⟨t, nm, prs, vld, mp, .noDefault, deps, h1, h2, h3⟩) ∧
    (∀ (t : PyType) (d : PyVal) (nm : Str) (prs : Option (Str → Except PyErr PyVal))
       (vld : Option (PyVal → Except PyErr Unit)) (mp : Option MapFn)
       (deps : List (Str × Option Str × Option Str)) (h1 h2 h3 : Option Str),
       isUnionB t = false → isInstance d t = true →
       declareVar ⟨t, nm, prs, vld, mp, .val d, deps, h1, h2, h3⟩ =
         .ok ⟨t, nm, prs, vld, mp, .val d, deps, h1, h2, h3⟩) ∧
    (∀ (t : PyType) (d : PyVal) (nm : Str) (prs : Option (Str → Except PyErr PyVal))
       (vld : Option (PyVal → Except PyErr Unit)) (mp : Option MapFn)
       (deps : List (Str × Option Str × Option Str)) (h1 h2 h3 : Option Str),
       isUnionB t = false → isInstance d t = false →
       declareVar ⟨t, nm, prs, vld, mp, .val d, deps, h1, h2, h3⟩ =
         .error (.typeError (S "default must be of type"))) := by
  refine ⟨fun args nm prs vld mp deps h1 h2 h3 => rfl, ?_, ?_, ?_, ?_, ?_⟩
  · intro args d nm prs vld mp deps h1 h2 h3 h
    simp [declareVar, h]
  · intro args d nm prs vld mp deps h1 h2 h3 h
    simp [declareVar, h]
  · intro t nm prs vld mp deps h1 h2 h3 h
    cases t <;> simp_all [declareVar, isUnionB]
  · intro t d nm prs vld mp deps h1 h2 h3 h hin
    cases t <;> simp_all [declareVar, isUnionB]
  · intro t d nm prs vld mp deps h1 h2 h3 h hin
    cases t <;> simp_all [declareVar, isUnionB]

/-- C7, witness for the amended theorem: a `Union[int, str]` variable with
the string default `"a"` (an instance of the `str` member) declares
successfully. -/
theorem c7_declaration_amended_witness :
    declareVar ⟨.union [.int, .str], S "X", none, none, none, .val (.str (S "a")),
      [], none, none, none⟩ =
      .ok ⟨.union [.int, .str], S "X", none, none, none, .val (.str (S "a")),
        [], none, none, none⟩ :=
  c7_declaration_amended.2.1 [.int, .str] (.str (S "a")) (S "X") none none none [] none
    none none rfl

/- Replacing the empty-mapping source by `none` changes nothing anywhere in
a construction: both are falsy to `source or os.environ` (recursive over
the schema tree, since the original `source` argument is what nested
schemas receive). -/
mutual
theorem constructSchema_emptySource (s : Schema) (procEnv : List (Str × Str))
    (parentFull : Str) :
    constructSchema s (some []) procEnv parentFull =
      constructSchema s none procEnv parentFull := by
  match s with
  | .mk pfx it cfg ms =>
    simp only [constructSchema]
    exact constructMembers_emptySource ms _ procEnv _ [] [] []
theorem constructMembers_emptySource (ms : Members) (env : EnvObj)
    (procEnv : List (Str × Str)) (fp : Str) (ws : List Str) (attrs : Inst)
    (ders : List (Str × DerivedVariable)) :
    constructMembers ms env (some []) procEnv fp ws attrs ders =
      constructMembers ms env none procEnv fp ws attrs ders := by
  match ms with
  | .nil => rfl
  | .cons name (.var v) rest =>
    simp only [constructMembers]
    match v.call env fp with
    | (w, .error e) => rfl
    | (w, .ok value) => exact constructMembers_emptySource rest env procEnv fp _ _ _
  | .cons name (.nested child) rest =>
    simp only [constructMembers, constructSchema_emptySource child procEnv fp]
    match constructSchema child none procEnv fp with
    | (w, .error e) => rfl
    | (w, .ok inst) => exact constructMembers_emptySource rest env procEnv fp _ _ _
  | .cons name (.derived d) rest =>
    simp only [constructMembers]
    exact constructMembers_emptySource rest env procEnv fp _ _ _
end

/-- A one-variable schema with empty prefix for the C9 demonstration. -/
def c9DemoSchema : Schema :=
  .mk [] none defaultCfg (.cons (S "x") (.var { type := .str, name := S "x" }) .nil)

/-- C9, confirmed.  Constructing from an empty source mapping never reads
that mapping: `source or os.environ` (env.py line 223) replaces a falsy
source — `None` or an empty mapping — by the process environment, so for
every schema construction from the empty mapping equals construction from
`None`, and concretely a variable absent from the empty mapping but
present in the process environment resolves to the process-environment
value instead of failing as missing. -/
theorem c9_empty_source_confirmed :
    (∀ (s : Schema) (procEnv : List (Str × Str)) (parentFull : Str),
       constructSchema s (some []) procEnv parentFull =
         constructSchema s none procEnv parentFull) ∧
    (∀ procEnv : List (Str × Str), effectiveSource (some []) procEnv = procEnv) ∧
    constructSchema c9DemoSchema (some []) [(S "X", S "fromenv")] [] =
      ([], .ok [(S "x", .val (.str (S "fromenv")))]) :=
  ⟨fun s procEnv parentFull => constructSchema_emptySource s procEnv parentFull,
   fun _ => rfl, rfl⟩

/-- C10, confirmed.  A present raw value equal to the empty string, for a
list-, tuple- or set-typed variable without parser and map, coerces to the
one-element collection holding the empty string — because splitting the
empty string yields one empty piece — and that collection is never the
empty one. -/
theorem c10_empty_raw_confirmed :
    ∀ (env : EnvObj) (nm : Str) (df : Default)
      (deps : List (Str × Option Str × Option Str)) (h1 h2 h3 : Option Str),
      coerceRaw ⟨.list, nm, none, none, none, df, deps, h1, h2, h3⟩ env [] =
        .ok (.list [.str []]) ∧
      coerceRaw ⟨.tuple, nm, none, none, none, df, deps, h1, h2, h3⟩ env [] =
        .ok (.tuple [.str []]) ∧
      coerceRaw ⟨.set, nm, none, none, none, df, deps, h1, h2, h3⟩ env [] =
        .ok (.set [.str []]) ∧
      PyVal.list [.str []] ≠ PyVal.list [] ∧
      PyVal.tuple [.str []] ≠ PyVal.tuple [] ∧
      PyVal.set [.str []] ≠ PyVal.set [] := by
  intro env nm df deps h1 h2 h3
  refine ⟨?_, ?_, ?_, by simp, by simp, by simp⟩ <;>
    simp [coerceRaw, splitOnS_nil, buildCollection, mkColl, dedupPy]

/-- The single loop of `Env.__init__` equals a first pass over the plain
and nested members followed by the collected derived members: deferring
each derived member to the accumulator and running the accumulator at the
end is the same as splitting the traversal in two. -/
theorem constructMembers_two_phase (ms : Members) :
    ∀ (env : EnvObj) (source : Option (List (Str × Str))) (procEnv : List (Str × Str))
      (fp : Str) (ws : List Str) (attrs : Inst) (ders : List (Str × DerivedVariable)),
      constructMembers ms env source procEnv fp ws attrs ders =
        (match pass1 ms env source procEnv fp ws attrs with
         | (ws2, .ok attrs2) => runDeriveds (ders ++ derivedsOf ms) ws2 attrs2
         | (ws2, .error e) => (ws2, .error e)) := by
  intro env source procEnv fp ws attrs ders
  match ms with
  | .nil => simp [constructMembers, pass1, derivedsOf]
  | .cons name (.var v) rest =>
    simp only [constructMembers, pass1]
    match v.call env fp with
    | (w, .error e) => rfl
    | (w, .ok value) =>
      exact constructMembers_two_phase rest env source procEnv fp _ _ _
  | .cons name (.nested child) rest =>
    simp only [constructMembers, pass1]
    match constructSchema child source procEnv fp with
    | (w, .error e) => rfl
    | (w, .ok inst) =>
      exact constructMembers_two_phase rest env source procEnv fp _ _ _
  | .cons name (.derived d) rest =>
    simp only [constructMembers, pass1, derivedsOf]
    rw [constructMembers_two_phase rest env source procEnv fp ws attrs (ders ++ [(name, d)])]
    simp

/-- C5, confirmed.  Construction of a configuration object is exactly the
two-phase process: every plain variable and nested schema member is
resolved and assigned, in declaration order, before any derived variable
runs; the derived variables then run in declaration order, each on the
attribute bag populated by the first pass plus the earlier derived
variables (the shape of `runDeriveds`); and since both sides return a
single `Except`, a failure in either pass yields an error with no instance
— there is no partially constructed configuration object. -/
theorem c5_two_phase_confirmed :
    ∀ (s : Schema) (source : Option (List (Str × Str))) (procEnv : List (Str × Str))
      (parentFull : Str),
      constructSchema s source procEnv parentFull =
        constructTwoPhase s source procEnv parentFull := by
  intro s source procEnv parentFull
  match s with
  | .mk pfx it cfg ms =>
    simp only [constructSchema, constructTwoPhase]
    rw [constructMembers_two_phase ms]
    simp

/-- Python dict lookup `d[k]` over the modelled pair list: the first pair
with an equal key (keys are unique by construction of `dictInsert`). -/
def findPy : List (PyVal × PyVal) → PyVal → Option PyVal
  | [], _ => none
  | (k0, v0) :: rest, k => if pyEq k0 k then some v0 else findPy rest k

/-- The value of the last item of `pairs` whose key equals `q`, the
observation "a later duplicate key wins". -/
def lastStrVal : List (Str × Str) → Str → Option Str
  | [], _ => none
  | (k0, v0) :: rest, q =>
    match lastStrVal rest q with
    | some v => some v
    | none => if k0 = q then some v0 else none

/-- A value that compares Python-equal to a string is that string. -/
theorem pyEq_str (x : PyVal) (b : Str) (h : pyEq x (.str b) = true) : x = .str b := by
  cases x <;> simp [pyEq] at h ⊢
  exact h

/-- `pyEq` on two strings is string equality. -/
theorem pyEq_str_str (a b : Str) : pyEq (.str a) (.str b) = (a == b) := by
  simp [pyEq]

/-- The value-overwrite function of `dictInsert` on a pair, in pair form. -/
theorem updPair (a : Str) (w : PyVal) (k0 v0 : PyVal) :
    (if pyEq (k0, v0).1 (PyVal.str a) then ((k0, v0).1, w) else (k0, v0)) =
      (k0, if pyEq k0 (PyVal.str a) then w else v0) := by
  by_cases h : pyEq k0 (PyVal.str a) = true <;> simp [h]

/-- Overwriting the values of the `a`-keyed entries does not change lookup
at a different string key. -/
theorem findPy_map_ne (d : List (PyVal × PyVal)) (a : Str) (w : PyVal) (q : Str)
    (hne : a ≠ q) :
    findPy (d.map (fun p => if pyEq p.1 (.str a) then (p.1, w) else p)) (.str q) =
      findPy d (.str q) := by
  induction d with
  | nil => rfl
  | cons p rest ih =>
    obtain ⟨k0, v0⟩ := p
    rw [List.map_cons, updPair]
    by_cases hkq : pyEq k0 (PyVal.str q) = true
    · have hk0 := pyEq_str k0 q hkq
      subst hk0
      have hia : pyEq (PyVal.str q) (PyVal.str a) = false := by
        simp [pyEq_str_str]
        intro h
        exact hne h.symm
      simp [findPy, hkq, hia]
    · simp [findPy, hkq, ih]

/-- When some entry carries the key `a`, overwriting makes lookup at `a`
return the new value. -/
theorem findPy_map_hit (d : List (PyVal × PyVal)) (a : Str) (w : PyVal)
    (hany : d.any (fun p => pyEq p.1 (.str a)) = true) :
    findPy (d.map (fun p => if pyEq p.1 (.str a) then (p.1, w) else p)) (.str a) =
      some w := by
  induction d with
  | nil => simp at hany
  | cons p rest ih =>
    obtain ⟨k0, v0⟩ := p
    rw [List.map_cons, updPair]
    cases hk : pyEq k0 (PyVal.str a) with
    | true => simp [findPy, hk]
    | false =>
      simp only [List.any_cons, hk, Bool.false_or] at hany
      simp [findPy, hk, ih hany]

/-- Lookup across an appended fresh binding: at the fresh key with no
earlier binding it finds the fresh value, at another key it is unchanged. -/
theorem findPy_append_last (d : List (PyVal × PyVal)) (a : Str) (w : PyVal) (q : Str) :
    (d.any (fun p => pyEq p.1 (.str a)) = false →
      findPy (d ++ [(.str a, w)]) (.str a) = some w) ∧
    (a ≠ q → findPy (d ++ [(.str a, w)]) (.str q) = findPy d (.str q)) := by
  induction d with
  | nil =>
    constructor
    · intro _
      simp [findPy, pyEq_str_str]
    · intro hne
      have : pyEq (PyVal.str a) (.str q) = false := by
        simp [pyEq_str_str]
        exact hne
      simp [findPy, this]
  | cons p rest ih =>
    obtain ⟨k0, v0⟩ := p
    constructor
    · intro hany
      simp only [List.any_cons, Bool.or_eq_false_iff] at hany
      simp [findPy, hany.1, (ih).1 hany.2]
    · intro hne
      by_cases hk : pyEq k0 (.str q) = true <;> simp [findPy, hk, (ih).2 hne]

/-- One `dictInsert` behaves as a map update: lookup at the inserted key
sees the new value, lookup elsewhere is unchanged. -/
theorem findPy_dictInsert (d : List (PyVal × PyVal)) (a : Str) (w : PyVal) (q : Str) :
    findPy (dictInsert d (.str a) w) (.str q) =
      if a = q then some w else findPy d (.str q) := by
  by_cases hany : d.any (fun p => pyEq p.1 (.str a)) = true
  · simp only [dictInsert, hany, if_true]
    by_cases hq : a = q
    · subst hq
      simp [findPy_map_hit d a w hany]
    · simp [hq, findPy_map_ne d a w q hq]
  · simp only [Bool.not_eq_true] at hany
    simp only [dictInsert, hany, Bool.false_eq_true, if_false]
    by_cases hq : a = q
    · subst hq
      simp [(findPy_append_last d a w a).1 hany]
    · simp [hq, (findPy_append_last d a w q).2 hq]

/-- Folding `dictInsert` over string pairs realises last-write-wins: the
final lookup at `q` is the value of the last pair keyed `q`, falling back
to the accumulator. -/
theorem findPy_foldl (pairs : List (Str × Str)) :
    ∀ (d : List (PyVal × PyVal)) (q : Str),
      findPy (pairs.foldl (fun acc kv => dictInsert acc (.str kv.1) (.str kv.2)) d) (.str q) =
        (match lastStrVal pairs q with
         | some v => some (.str v)
         | none => findPy d (.str q)) := by
  induction pairs with
  | nil => intro d q; rfl
  | cons kv rest ih =>
    intro d q
    obtain ⟨k, v⟩ := kv
    simp only [List.foldl_cons, ih, lastStrVal]
    cases lastStrVal rest q with
    | some v2 => rfl
    | none =>
      by_cases hkq : k = q
      · subst hkq
        simp [findPy_dictInsert d k (.str v) k]
      · simp [hkq, findPy_dictInsert d k (.str v) q]

/-- Each raw dict item splits into at most two pieces. -/
theorem splitOnceS_le_two (sep : Str) (s : Str) : (splitOnceS sep s).length ≤ 2 := by
  suffices h : ∀ (s cur : Str), (splitOnceS.go sep cur s).length ≤ 2 from h s []
  intro s
  induction s with
  | nil => intro cur; simp [splitOnceS.go]
  | cons c rest ih =>
    intro cur
    simp only [splitOnceS.go]
    cases dropStart sep (c :: rest) with
    | some after => simp
    | none => exact ih (c :: cur)

/-- C4, confirmed.  A list-typed variable with neither parser nor map
coerces a raw value to the string pieces of the item-separator split, in
order — concretely `"a,b,c"` gives `["a","b","c"]`.  A dict-typed variable
splits on the item separator, splits each item at most once on the value
separator into a key/value string pair (`splitOnceS` never yields more
than two pieces), and builds the mapping by sequential insertion, so that
lookup returns the value of the last pair with the key — later duplicate
keys silently overwrite earlier ones, concretely `"a:1,a:2"` gives
`{"a": "2"}` and `"a:1,b:2"` gives `{"a": "1", "b": "2"}`. -/
theorem c4_collections_confirmed :
    (∀ (env : EnvObj) (nm : Str) (df : Default)
       (deps : List (Str × Option Str × Option Str)) (h1 h2 h3 : Option Str) (raw : Str),
       coerceRaw ⟨.list, nm, none, none, none, df, deps, h1, h2, h3⟩ env raw =
         .ok (.list ((splitOnS env.itemSep raw).map PyVal.str))) ∧
    coerceRaw { type := .list, name := S "l" } (envWith []) (S "a,b,c") =
      .ok (.list [.str (S "a"), .str (S "b"), .str (S "c")]) ∧
    (∀ (env : EnvObj) (nm : Str) (df : Default)
       (deps : List (Str × Option Str × Option Str)) (h1 h2 h3 : Option Str)
       (raw : Str) (pairs : List (Str × Str)),
       toPairs env.valueSep (splitOnS env.itemSep raw) = .ok pairs →
       coerceRaw ⟨.dict, nm, none, none, none, df, deps, h1, h2, h3⟩ env raw =
         .ok (.dict (buildLastWins pairs))) ∧
    (∀ (pairs : List (Str × Str)) (q : Str),
       findPy (buildLastWins pairs) (.str q) = (lastStrVal pairs q).map PyVal.str) ∧
    (∀ (vsep s : Str), (splitOnceS vsep s).length ≤ 2) ∧
    coerceRaw { type := .dict, name := S "d" } (envWith []) (S "a:1,a:2") =
      .ok (.dict [(.str (S "a"), .str (S "2"))]) ∧
    coerceRaw { type := .dict, name := S "d" } (envWith []) (S "a:1,b:2") =
      .ok (.dict [(.str (S "a"), .str (S "1")), (.str (S "b"), .str (S "2"))]) := by
  refine ⟨fun env nm df deps h1 h2 h3 raw => rfl, rfl, ?_, ?_, splitOnceS_le_two, rfl, rfl⟩
  · intro env nm df deps h1 h2 h3 raw pairs h
    simp [coerceRaw, buildDict, h]
  · intro pairs q
    rw [buildLastWins, findPy_foldl pairs [] q]
    cases lastStrVal pairs q <;> rfl

/-- C4, witness for the dict branch: raw `"a:1,a:2"` with the default
separators splits into the pairs `[(a,1),(a,2)]` and the coercion builds
exactly the last-write-wins dict of those pairs. -/
theorem c4_collections_witness :
    coerceRaw ⟨.dict, S "d", none, none, none, .noDefault, [], none, none, none⟩
      (envWith []) (S "a:1,a:2") =
      .ok (.dict (buildLastWins [(S "a", S "1"), (S "a", S "2")])) :=
  c4_collections_confirmed.2.2.1 (envWith []) (S "d") .noDefault [] none none none
    (S "a:1,a:2") [(S "a", S "1"), (S "a", S "2")] rfl

/-- A strictly smaller string is weakly smaller. -/
theorem strLeB_of_strLtB : ∀ a b : Str, strLtB a b = true → strLeB a b = true := by
  intro a
  induction a with
  | nil => intro b _; rfl
  | cons x xs ih =>
    intro b h
    cases b with
    | nil => simp [strLtB] at h
    | cons y ys =>
      simp only [strLtB] at h
      simp only [strLeB]
      rcases Nat.lt_trichotomy x.toNat y.toNat with h1 | h1 | h1
      · simp [h1]
      · simp only [h1, Nat.lt_irrefl, if_false] at h ⊢
        exact ih ys h
      · simp [Nat.lt_asymm h1, h1] at h

/-- Strings are totally ordered: not strictly smaller means weakly larger. -/
theorem strLeB_of_not_strLtB : ∀ a b : Str, strLtB a b = false → strLeB b a = true := by
  intro a
  induction a with
  | nil =>
    intro b h
    cases b with
    | nil => rfl
    | cons y ys => simp [strLtB] at h
  | cons x xs ih =>
    intro b h
    cases b with
    | nil => rfl
    | cons y ys =>
      simp only [strLtB] at h
      simp only [strLeB]
      rcases Nat.lt_trichotomy x.toNat y.toNat with h1 | h1 | h1
      · simp [h1] at h
      · simp only [h1, Nat.lt_irrefl, if_false] at h ⊢
        exact ih ys h
      · simp [h1]

/-- Weak string comparison is transitive. -/
theorem strLeB_trans : ∀ a b c : Str,
    strLeB a b = true → strLeB b c = true → strLeB a c = true := by
  intro a
  induction a with
  | nil => intro b c _ _; rfl
  | cons x xs ih =>
    intro b c hab hbc
    cases b with
    | nil => simp [strLeB] at hab
    | cons y ys =>
      cases c with
      | nil => simp [strLeB] at hbc
      | cons z zs =>
        simp only [strLeB] at hab hbc ⊢
        rcases Nat.lt_trichotomy x.toNat y.toNat with h1 | h1 | h1
        · rcases Nat.lt_trichotomy y.toNat z.toNat with h2 | h2 | h2
          · simp [show x.toNat < z.toNat from Nat.lt_trans h1 h2]
          · simp [show x.toNat < z.toNat from h2 ▸ h1]
          · simp [Nat.lt_asymm h2, h2] at hbc
        · rcases Nat.lt_trichotomy y.toNat z.toNat with h2 | h2 | h2
          · simp [show x.toNat < z.toNat from h1 ▸ h2]
          · have hxz : x.toNat = z.toNat := h1.trans h2
            simp only [h1, Nat.lt_irrefl, if_false] at hab
            simp only [h2, Nat.lt_irrefl, if_false] at hbc
            simp only [hxz, Nat.lt_irrefl, if_false]
            exact ih ys zs hab hbc
          · simp [Nat.lt_asymm h2, h2] at hbc
        · simp [Nat.lt_asymm h1, h1] at hab

/-- Inserting into a list is a permutation of consing. -/
theorem insertLt_perm {α : Type} (lt : α → α → Bool) (x : α) (l : List α) :
    List.Perm (insertLt lt x l) (x :: l) := by
  induction l with
  | nil => rfl
  | cons y ys ih =>
    simp only [insertLt]
    by_cases h : lt y x = true
    · simp only [h, if_true]
      exact List.Perm.trans (List.Perm.cons y ih) (List.Perm.swap x y ys)
    · simp [h]

/-- The stable sort is a permutation of its input. -/
theorem sortLt_perm {α : Type} (lt : α → α → Bool) (l : List α) :
    List.Perm (sortLt lt l) l := by
  induction l with
  | nil => rfl
  | cons x xs ih =>
    exact List.Perm.trans (insertLt_perm lt x (sortLt lt xs)) (List.Perm.cons x ih)

/-- Insertion preserves pairwise order, for a total transitive comparison. -/
theorem insertLt_pairwise {α : Type} (lt : α → α → Bool) (le : α → α → Prop)
    (hlt : ∀ a b, lt a b = true → le a b)
    (hnlt : ∀ a b, lt a b = false → le b a)
    (htrans : ∀ a b c, le a b → le b c → le a c)
    (x : α) (l : List α) (hp : l.Pairwise le) :
    (insertLt lt x l).Pairwise le := by
  induction l with
  | nil => simp [insertLt]
  | cons y ys ih =>
    rcases List.pairwise_cons.mp hp with ⟨hy, hys⟩
    cases hc : lt y x with
    | true =>
      simp only [insertLt, hc, if_true]
      refine List.pairwise_cons.mpr ⟨?_, ih hys⟩
      intro z hz
      rcases List.mem_cons.mp ((insertLt_perm lt x ys).mem_iff.mp hz) with rfl | hzys
      · exact hlt _ _ hc
      · exact hy z hzys
    | false =>
      simp only [insertLt, hc, Bool.false_eq_true, if_false]
      refine List.pairwise_cons.mpr ⟨?_, hp⟩
      intro z hz
      rcases List.mem_cons.mp hz with rfl | hzys
      · exact hnlt _ _ hc
      · exact htrans x y z (hnlt y x hc) (hy z hzys)

/-- The stable sort is pairwise ordered, for a total transitive comparison. -/
theorem sortLt_pairwise {α : Type} (lt : α → α → Bool) (le : α → α → Prop)
    (hlt : ∀ a b, lt a b = true → le a b)
    (hnlt : ∀ a b, lt a b = false → le b a)
    (htrans : ∀ a b c, le a b → le b c → le a c)
    (l : List α) : (sortLt lt l).Pairwise le := by
  induction l with
  | nil => simp [sortLt]
  | cons x xs ih => exact insertLt_pairwise lt le hlt hnlt htrans x (sortLt lt xs) ih

/-- A successful entry list has one entry per variable. -/
theorem mapEntries_length (fp : Str) :
    ∀ (l : List EnvVariable) (es : List (Str × Str × Str × Str)),
      mapEntries fp l = .ok es → es.length = l.length := by
  intro l
  induction l with
  | nil =>
    intro es h
    simp only [mapEntries] at h
    cases h
    rfl
  | cons v rest ih =>
    intro es h
    simp only [mapEntries] at h
    cases h1 : mkEntry fp v with
    | error e => rw [h1] at h; cases h
    | ok ent =>
      rw [h1] at h
      cases h2 : mapEntries fp rest with
      | error e => rw [h2] at h; cases h
      | ok tl =>
        rw [h2] at h
        cases h
        simp [ih tl h2]

/-- A successful entry shows the displayed key: the accumulated prefix and
the normalized declared name, wrapped in double backticks. -/
theorem mkEntry_key (fp : Str) (v : EnvVariable) (e : Str × Str × Str × Str)
    (h : mkEntry fp v = .ok e) :
    e.1 = S "``" ++ fp ++ normalized v.name ++ S "``" := by
  unfold mkEntry at h
  cases h1 : dispTypeOf v with
  | error e2 => rw [h1] at h; cases h
  | ok dt =>
    rw [h1] at h
    cases h
    rfl

/-- Appending the separator makes the prefix end with it. -/
theorem endsWithS_append_sep (s : Str) : endsWithS (s ++ S "_") (S "_") = true := by
  simp only [endsWithS]
  rw [List.isSuffixOf_iff_suffix]
  exact List.suffix_append s (S "_")

/-- The schema of the C8 counterexample: an empty declared prefix and one
variable `foo`. -/
def c8Schema : Schema :=
  .mk [] none defaultCfg
    (.cons (S "foo") (.var { type := .int, name := S "foo", default := .val (.int 5) }) .nil)

/-- C8, counterexample.  For a schema with an empty prefix, `help_info`
displays the key ```` ``_FOO`` ````, while the construction-time fully
prefixed name is `FOO`: the loop of env.py lines 417 to 419 appends the
separator underscore even to an empty accumulated prefix, where
`Env.__init__` (lines 226 to 232) appends it only to a non-empty one — so
the displayed key is not the construction-time key wrapped in backticks. -/
theorem c8_help_prefix_counterexample :
    help_info c8Schema false = .ok [(S "``_FOO``", S "``int``", S "5", S "")] ∧
    fullPfx [] (Schema.pfx c8Schema) ++ normalized (S "foo") = S "FOO" ∧
    S "``_FOO``" ≠ S "``" ++ S "FOO" ++ S "``" := by
  refine ⟨rfl, rfl, ?_⟩
  decide

/-- The nested schemas of the C8 recursive example. -/
def aaSchema : Schema :=
  .mk (S "AA") none defaultCfg (.cons (S "va") (.var { type := .str, name := S "va" }) .nil)

/-- Second nested schema of the C8 recursive example, prefix `BB`. -/
def bbSchema : Schema :=
  .mk (S "BB") none defaultCfg (.cons (S "vb") (.var { type := .str, name := S "vb" }) .nil)

/-- The root of the C8 recursive example: prefix `R`, one variable and the
two nested schemas `AA` and `BB`, declared in that order. -/
def rootSchema : Schema :=
  .mk (S "R") none defaultCfg
    (.cons (S "rv") (.var { type := .str, name := S "rv" })
      (.cons (S "a") (.nested aaSchema)
        (.cons (S "b") (.nested bbSchema) .nil)))

/-- C8, amended.  `help_info` without `recursive` reads only the top
schema, producing the entries of its variables sorted by declared name
(the sort is a permutation, pairwise ordered by the name comparison, one
entry per variable on success); a successful entry displays as key the
accumulated prefix followed by the normalized declared name in double
backticks, and the sentinel no-default renders as the empty string.  The
accumulated prefix always ends with the separator underscore — appended
even when the accumulated prefix is empty, so an empty prefix yields keys
with a leading underscore, unlike construction-time lookup.  With
`recursive`, nested schemas are expanded through a worklist popped at the
opposite end from where the children (sorted by declared prefix) are
spliced in, so sibling subtrees are emitted in reverse prefix order — `BB`
before `AA` — not depth-first. -/
theorem c8_help_amended :
    (∀ s : Schema,
       help_info s false = addEntries (helpStepPfx [] s.pfx) s.members) ∧
    (∀ (fp : Str) (ms : Members),
       addEntries fp ms = mapEntries fp (sortLt nameLt (varsOf ms))) ∧
    (∀ ms : Members, List.Perm (sortLt nameLt (varsOf ms)) (varsOf ms)) ∧
    (∀ ms : Members,
       (sortLt nameLt (varsOf ms)).Pairwise (fun a b => strLeB a.name b.name = true)) ∧
    (∀ (fp : Str) (l : List EnvVariable) (es : List (Str × Str × Str × Str)),
       mapEntries fp l = .ok es → es.length = l.length) ∧
    (∀ (fp : Str) (v : EnvVariable) (e : Str × Str × Str × Str),
       mkEntry fp v = .ok e → e.1 = S "``" ++ fp ++ normalized v.name ++ S "``") ∧
    defaultStr .noDefault = [] ∧
    (∀ p c : Str, endsWithS (helpStepPfx p c) (S "_") = true) ∧
    helpStepPfx [] [] = S "_" ∧
    help_info rootSchema true =
      .ok [(S "``R_RV``", S "``str``", S "", S ""),
           (S "``R_BB_VB``", S "``str``", S "", S ""),
           (S "``R_AA_VA``", S "``str``", S "", S "")] := by
  refine ⟨?_, fun fp ms => rfl, fun ms => sortLt_perm nameLt (varsOf ms),
    fun ms => sortLt_pairwise nameLt _ (fun a b h => strLeB_of_strLtB a.name b.name h)
      (fun a b h => strLeB_of_not_strLtB a.name b.name h)
      (fun a b c h1 h2 => strLeB_trans a.name b.name c.name h1 h2) (varsOf ms),
    mapEntries_length, mkEntry_key, rfl, ?_, rfl, rfl⟩
  · intro s
    match s with
    | .mk p it cf ms =>
      simp only [help_info, sizeSch, helpLoop, Schema.pfx, Schema.members]
      cases h : addEntries (helpStepPfx [] p) ms <;> simp [h]
  · intro p c
    unfold helpStepPfx
    by_cases h : endsWithS (p ++ normalized c) (S "_") = true
    · simp [h]
    · simp only [h, Bool.false_eq_true, if_false]
      exact endsWithS_append_sep (p ++ normalized c)

/-- C8, witness for the amended theorem: the key displayed for `foo` under
the accumulated empty-prefix separator `"_"` is exactly the backtick
quoting of `_FOO`. -/
theorem c8_help_amended_witness :
    (S "``_FOO``", S "``int``", S "5", (S "" : Str)).1 =
      S "``" ++ S "_" ++ normalized (S "foo") ++ S "``" :=
  c8_help_amended.2.2.2.2.2.1 (S "_")
    { type := .int, name := S "foo", default := .val (.int 5) }
    (S "``_FOO``", S "``int``", S "5", S "") rfl
